import Mathlib

/-!
Verification of the substack-dl archive-crawl-and-convert pipeline
(`src/substack_dl/main.py`) against its natural-language specification.

The Python source is shallowly embedded: pure helpers become Lean
functions, file-system and network effects become explicit state
passing (the file system is a list of existing paths, a network fetch
outcome is a parameter of the post's behaviour), and Python exceptions
become explicit short-circuiting with the effects performed before the
exception preserved.  All definitions are structurally recursive so that
concrete runs evaluate inside the kernel.
-/

namespace SubstackDL

/-- JSON values, modelling the Python objects produced by `json.loads`. -/
inductive JVal where
  | null
  | str (s : String)
  | num (n : Int)
  | bool (b : Bool)
  | arr (l : List JVal)
  | obj (fields : List (String × JVal))

/-- Equality test on the `@type` tag values compared by
`extract_metadata_from_post`; only string payloads need distinguishing. -/
def JVal.isStrVal : Option JVal → String → Bool
  | some (.str s), t => s == t
  | _, _ => false

/-- Python `dict.get(k)` on a JSON object (`None`, i.e. `none`, when the key is
absent or the value is not a dict).  Duplicate keys do not arise from
`json.loads`, so first-match lookup is adequate. -/
def JVal.get : JVal → String → Option JVal
  | .obj fields, k => fields.lookup k
  | _, _ => none

/-- Python `isinstance(x, dict)`. -/
def JVal.isObj : JVal → Bool
  | .obj _ => true
  | _ => false

/-- The metadata dictionary built by `extract_metadata_from_post`
(`main.py:126-132`).  The five keys are always present; optional fields model
values that may be `None`. -/
structure Metadata where
  title : Option String
  author : Option String
  published_date : Option String
  tags : List String
  url : String
deriving DecidableEq

/-- Python truthiness of an optional string: `None` and `""` are falsy. -/
def falsyS : Option String → Bool
  | none => true
  | some s => s == ""

/-- Python `str.split(sep)` for a one-character separator, on char lists
(structural, so concrete inputs reduce in the kernel). -/
def splitOnChar (sep : Char) : List Char → List (List Char)
  | [] => [[]]
  | c :: cs =>
      let r := splitOnChar sep cs
      if c == sep then [] :: r
      else
        match r with
        | h :: t => (c :: h) :: t
        | [] => [[c]]

/-- Python `str.split(sep)` lifted to strings. -/
def pySplit (s : String) (sep : Char) : List String :=
  (splitOnChar sep s.data).map String.mk

/-- Characters stripped by Python `str.strip()`. -/
def pyWhitespace (c : Char) : Bool :=
  c == ' ' || c == '\t' || c == '\n' || c == '\r' || c == Char.ofNat 11 || c == Char.ofNat 12

/-- Python `str.strip()` with no argument. -/
def pyStrip (s : String) : String :=
  .mk (((s.data.dropWhile pyWhitespace).reverse.dropWhile pyWhitespace).reverse)

/-- Selection of the JSON-LD dictionary from the parsed value
(`main.py:139-152`): if it is a list, prefer the first entry typed
`NewsArticle`/`Article`, else fall back to the first element when that element
is a dict, else the empty dict; a dict is used as-is; anything else becomes
the empty dict. -/
def selectJsonLd (j : JVal) : JVal :=
  match j with
  | .arr l =>
      match l.find? (fun it =>
          it.isObj && (JVal.isStrVal (it.get "@type") "NewsArticle"
            || JVal.isStrVal (it.get "@type") "Article")) with
      | some it => it
      | none =>
          match l.head? with
          | some it => if it.isObj then it else .obj []
          | none => .obj []
  | .obj fields => .obj fields
  | _ => .obj []

/-- Python truthiness of the selected JSON-LD value (`if json_data:`,
`main.py:155`); by construction the value is a dict, empty dicts are falsy. -/
def dictTruthy : JVal → Bool
  | .obj fields => !fields.isEmpty
  | _ => false

/-- A JSON value read as an optional string.  The Substack JSON-LD fields
modelled here (`headline`, `name`, `datePublished`) are strings when present;
non-string values are outside the model and map to `none`. -/
def jsonStr? : Option JVal → Option String
  | some (.str s) => some s
  | _ => none

/-- Author extraction from the JSON-LD dict (`main.py:157-161`): a dict's
`name`, or the `name` of the first element when the author is a nonempty list
whose first element is a dict. -/
def extractAuthor (j : JVal) : Option String :=
  match j.get "author" with
  | some (.obj fields) => jsonStr? (JVal.get (.obj fields) "name")
  | some (.arr (a :: _)) =>
      match a with
      | .obj fields => jsonStr? (JVal.get (.obj fields) "name")
      | _ => none
  | _ => none

/-- Keyword extraction (`main.py:164-168`): a comma-joined string is split,
each part stripped and blanks dropped; a list keeps its string elements whose
stripped form is nonempty (unstripped). -/
def extractKeywords (kw : Option JVal) : List String :=
  match kw with
  | some (.str s) =>
      ((pySplit s ',').map pyStrip).filter (fun t => t != "")
  | some (.arr l) =>
      (l.filterMap (fun v =>
          match v with
          | .str t => some t
          | _ => none)).filter (fun t => pyStrip t != "")
  | _ => []

/-- Model of `datetime.fromisoformat` restricted to its calendar-date prefix,
returning the `%Y-%m-%d` rendering (`main.py:188-190`): ten characters
`YYYY-MM-DD` with plausible month/day ranges, optionally followed by `T` or a
space and a time part (whose fine validation is not modelled — no claim
depends on it). -/
def isoDateYMD (s : String) : Option String :=
  match s.data with
  | y1 :: y2 :: y3 :: y4 :: h1 :: mo1 :: mo2 :: h2 :: d1 :: d2 :: rest =>
      if ([y1, y2, y3, y4, mo1, mo2, d1, d2].all Char.isDigit) && h1 == '-' && h2 == '-' then
        let month := (mo1.toNat - 48) * 10 + (mo2.toNat - 48)
        let day := (d1.toNat - 48) * 10 + (d2.toNat - 48)
        if (1 ≤ month && month ≤ 12 && 1 ≤ day && day ≤ 31)
            && (rest.isEmpty || rest.head? == some 'T' || rest.head? == some ' ') then
          some (String.mk [y1, y2, y3, y4, h1, mo1, mo2, h2, d1, d2])
        else none
      else none
  | _ => none

/-- Python `s.replace("Z", "+00:00")` (single-character pattern, so a
structural traversal is faithful). -/
def replaceZ : List Char → List Char
  | [] => []
  | c :: cs =>
      if c == 'Z' then '+' :: '0' :: '0' :: ':' :: '0' :: '0' :: replaceZ cs
      else c :: replaceZ cs

/-- Digits-only string to `Nat`. -/
def natOfDigits? (s : String) : Option Nat :=
  if s.length > 0 && s.data.all Char.isDigit then
    some (s.data.foldl (fun a c => a * 10 + (c.toNat - 48)) 0)
  else none

/-- Decimal rendering of a natural number (Python `str(n)` / f-string
interpolation of an `int`), via explicit fuel so that it is structural. -/
def natDecimalAux : Nat → Nat → List Char
  | 0, _ => []
  | fuel + 1, n => if n = 0 then [] else natDecimalAux fuel (n / 10) ++ [Nat.digitChar (n % 10)]

def natDecimal (n : Nat) : String :=
  if n = 0 then "0" else .mk (natDecimalAux (n + 1) n)

/-- Zero-padded two-digit rendering (`%m` / `%d`). -/
def pad2 (n : Nat) : String :=
  if n < 10 then "0" ++ natDecimal n else natDecimal n

def weekdayNames : List String :=
  ["Monday", "Tuesday", "Wednesday", "Thursday", "Friday", "Saturday", "Sunday"]

def monthNames : List String :=
  ["January", "February", "March", "April", "May", "June", "July",
   "August", "September", "October", "November", "December"]

/-- Model of `datetime.strptime(s, "%A, %B %d, %Y")` followed by
`strftime("%Y-%m-%d")` (`main.py:193-195`), on the canonical
`"Weekday, Month DD, YYYY"` shape. -/
def longDateYMD (s : String) : Option String :=
  match pySplit s ',' with
  | [wd, md, yr] =>
      if weekdayNames.contains wd then
        match pySplit (pyStrip md) ' ' with
        | [mon, day] =>
            match monthNames.findIdx? (· == mon), natOfDigits? day, natOfDigits? (pyStrip yr) with
            | some mi, some d, some y =>
                if (1 ≤ d && d ≤ 31) && (pyStrip yr).length == 4 then
                  some (natDecimal y ++ "-" ++ pad2 (mi + 1) ++ "-" ++ pad2 d)
                else none
            | _, _, _ => none
        | _ => none
      else none
  | _ => none

/-- Date normalisation for the meta-tag fallback (`main.py:187-197`): try the
ISO parse of the content with `Z` replaced by `+00:00`, then the long form,
else keep the raw string (with a warning). -/
def normalizeDateMeta (c : String) : String :=
  match isoDateYMD (.mk (replaceZ c.data)) with
  | some ymd => ymd
  | none =>
      match longDateYMD c with
      | some ymd => ymd
      | none => c

/-- The metadata-bearing parts of a fetched post page, as seen by
`extract_metadata_from_post`: the first `application/ld+json` script block
(absent, or its `json.loads` outcome, error standing for
`json.JSONDecodeError`), the author meta-tag content, the published-time
meta-tag content (first of the three recognised properties), and the
`article:tag` meta contents. -/
structure PageMeta where
  jsonLd : Option (Except Unit JVal)
  authorMeta : Option String
  dateMeta : Option String
  tagMetas : List String

/-- Shallow embedding of `extract_metadata_from_post` (`main.py:120-209`). -/
def extract_metadata_from_post (pm : PageMeta) (post_url : String) : Metadata :=
  let m0 : Metadata :=
    { title := none, author := none, published_date := none, tags := [], url := post_url }
  -- JSON-LD branch (`main.py:134-172`); a parse error is caught and logged.
  let m1 : Metadata :=
    match pm.jsonLd with
    | some (.ok j) =>
        let json_data := selectJsonLd j
        if dictTruthy json_data then
          { m0 with
            title := jsonStr? (json_data.get "headline")
            author := extractAuthor json_data
            published_date := jsonStr? (json_data.get "datePublished")
            tags := extractKeywords (json_data.get "keywords") }
        else m0
    | _ => m0
  -- Author fallback (`main.py:175-179`); meta contents are used only when truthy.
  let m2 :=
    if falsyS m1.author then
      match pm.authorMeta with
      | some c => if c != "" then { m1 with author := some c } else m1
      | none => m1
    else m1
  -- Published-date fallback with normalisation (`main.py:181-197`).
  let m3 :=
    if falsyS m2.published_date then
      match pm.dateMeta with
      | some c => if c != "" then { m2 with published_date := some (normalizeDateMeta c) } else m2
      | none => m2
    else m2
  -- Tags fallback (`main.py:200-203`).
  let m4 :=
    if m3.tags.isEmpty then
      { m3 with tags := pm.tagMetas.filter (fun t => t != "") }
    else m3
  -- Final cleanup of empty tags (`main.py:206`).
  { m4 with tags := m4.tags.filter (fun t => t != "") }

/-- The concrete JSON-LD page of claim C2. -/
def c2Page : PageMeta :=
  { jsonLd := some (.ok (.obj
      [("headline", .str "T"),
       ("author", .obj [("name", .str "A")]),
       ("datePublished", .str "2023-01-01T12:00:00Z"),
       ("keywords", .str "x, y")]))
    authorMeta := none
    dateMeta := none
    tagMetas := [] }

/-! ### Archive walker (`get_all_post_urls`, `main.py:212-271`) -/

/-- One iteration of the archive-walking loop, reduced to its termination
logic (`main.py:227-253`).  The argument is the set of post URLs extracted
from the fetched page after link filtering; an empty set models both the
no-links break (`main.py:230-232`) and the no-valid-URLs break
(`main.py:244-246`).  `none` means the loop breaks, `some` carries the grown
accumulator. -/
def archiveStep (all_post_urls current_page_urls : Finset String) : Option (Finset String) :=
  if current_page_urls = ∅ then none
  else
    let new_urls := current_page_urls \ all_post_urls
    if new_urls = ∅ then none
    else some (all_post_urls ∪ new_urls)

/-- The archive-walking loop (`while True`, `main.py:218-256`) over an
abstract pagination `pages : page number → extracted URL set`, with explicit
fuel; the boolean records whether the walk reached one of its break
conditions (rather than running out of fuel). -/
def get_all_post_urls (pages : Nat → Finset String) :
    Nat → Nat → Finset String → Finset String × Bool
  | 0, _, acc => (acc, false)
  | fuel + 1, page, acc =>
      match archiveStep acc (pages page) with
      | none => (acc, true)
      | some acc' => get_all_post_urls pages fuel (page + 1) acc'

/-! ### Asset localizer (`download_images_and_rewrite_paths`, `main.py:274-355`) -/

/-- The `k`-th local filename candidate tried for an image
(`main.py:327-334`): first `base ++ ext`, then `base_k ++ ext` for
`k = 1, 2, …`. -/
def imageCand (base ext : String) (k : Nat) : String :=
  if k = 0 then base ++ ext else base ++ "_" ++ natDecimal k ++ ext

/-- The `while os.path.exists` collision loop (`main.py:330-334`), with fuel.
Existence is checked on the joined path `destDir/candidate`. -/
def imageNameFrom (fs : List String) (destDir base ext : String) :
    Nat → Nat → String
  | 0, k => imageCand base ext k
  | fuel + 1, k =>
      if (destDir ++ "/" ++ imageCand base ext k) ∈ fs then
        imageNameFrom fs destDir base ext fuel (k + 1)
      else imageCand base ext k

/-- The unique local filename chosen for one image.  `fs.length + 1` fuel is
always sufficient: the candidates are pairwise distinct, so at most
`fs.length` of them can collide with existing paths. -/
def local_image_filename (fs : List String) (destDir base ext : String) : String :=
  imageNameFrom fs destDir base ext (fs.length + 1) 0

/-- An `<img>` tag together with the attributes the localizer derives for it
through the external collaborators (urljoin/urlparse/mimetypes/slugify):
the raw `src` attribute (`main.py:300`), whether the resolved URL is a data
URI (`main.py:307`), whether the download succeeds (`main.py:312-313`), the
slugified filename base with its positional fallback already applied
(`main.py:326`), and the derived extension with leading dot
(`main.py:322-324`). -/
structure ImgTag where
  src : Option String
  isDataUri : Bool
  downloadOk : Bool
  safeBase : String
  ext : String

/-- Result of the localizer: the file system afterwards, the per-image final
`src` attribute (`some` = rewritten to a local relative path, `none` = left
unchanged), and the image files written, in encounter order. -/
structure LocalizeResult where
  fs : List String
  srcs : List (Option String)
  written : List String

/-- The per-image loop of the localizer (`main.py:299-353`).  A missing
`src`, a data URI, or a failed download leaves the tag unmodified and
continues; a successful download picks a collision-free name, writes the
file, and rewrites `src` to `assetsDirName/postSlug/name` (`main.py:345`). -/
def localizeLoop (destDir assetsDirName postSlug : String) :
    List ImgTag → List String → List String × List (Option String) × List String
  | [], fs => (fs, [], [])
  | img :: rest, fs =>
      match img.src with
      | none =>
          let r := localizeLoop destDir assetsDirName postSlug rest fs
          (r.1, none :: r.2.1, r.2.2)
      | some _ =>
          if img.isDataUri then
            let r := localizeLoop destDir assetsDirName postSlug rest fs
            (r.1, none :: r.2.1, r.2.2)
          else if !img.downloadOk then
            -- requests exception caught per image (`main.py:350-353`)
            let r := localizeLoop destDir assetsDirName postSlug rest fs
            (r.1, none :: r.2.1, r.2.2)
          else
            let name := local_image_filename fs destDir img.safeBase img.ext
            let path := destDir ++ "/" ++ name
            let rel := assetsDirName ++ "/" ++ postSlug ++ "/" ++ name
            let r := localizeLoop destDir assetsDirName postSlug rest (path :: fs)
            (r.1, some rel :: r.2.1, name :: r.2.2)

/-- Shallow embedding of `download_images_and_rewrite_paths`
(`main.py:274-355`).  With no images the fragment is returned untouched
(`main.py:287-288`); otherwise `os.makedirs(save_dir, exist_ok=True)` runs
before the image loop (`main.py:297`). -/
def download_images_and_rewrite_paths (imgs : List ImgTag)
    (destDir postSlug assetsDirName : String) (fs : List String) : LocalizeResult :=
  if imgs.isEmpty then { fs := fs, srcs := [], written := [] }
  else
    let fs1 := if destDir ∈ fs then fs else destDir :: fs
    let r := localizeLoop destDir assetsDirName postSlug imgs fs1
    { fs := r.1, srcs := r.2.1, written := r.2.2 }

/-! ### Incremental log (`load_download_log` / `save_to_download_log`,
`main.py:537-554`) -/

/-- The state of the incremental-log file as `load_download_log` finds it:
absent, present but not parseable JSON (`json.JSONDecodeError`), or parsed
to a JSON value. -/
inductive LogFileState where
  | absent
  | notJson
  | parsed (j : JVal)

/-- Shallow embedding of `load_download_log` (`main.py:537-547`).  The result
pairs the outcome (`Except.error` = an exception escaping the function) with
a flag recording whether the malformed-log warning was emitted.  Only
`json.JSONDecodeError` is caught; a parsed non-dict value raises
`AttributeError` at `data.get` uncaught.  A dict whose `processed_urls` is
not a list is modelled as raising too (the tool itself only ever writes a
list of strings there, and no claim touches that case); string list elements
are kept. -/
def load_download_log : LogFileState → Except Unit (List String) × Bool
  | .absent => (.ok [], false)
  | .notJson => (.ok [], true)
  | .parsed j =>
      match j with
      | .obj fields =>
          match fields.lookup "processed_urls" with
          | some (.arr l) =>
              (.ok (l.filterMap fun v =>
                  match v with
                  | .str s => some s
                  | _ => none), false)
          | some _ => (.error (), false)
          | none => (.ok [], false)
      | _ => (.error (), false)

/-! ### pdf/epub conversion step (`main.py:635-717`) -/

/-- Outcome of writing the temporary synthesized HTML file
(`main.py:693-694`): the write succeeds, or `open` raises before the file
exists, or the write raises after creating it. -/
inductive TempWrite where
  | ok
  | failNoFile
  | failWithFile

/-- The pdf/epub conversion step for one format, acting on the file system.
The inner `try` (`main.py:639-717`) creates the temporary HTML file, calls
`pypandoc.convert_file` producing `outPath`, and removes the temporary file
after success (`main.py:706-707`); the inner `except` removes it when
present and continues (`main.py:709-717`).  Returns the file system
afterwards and whether the conversion produced its output. -/
def pdfEpubRender (fs : List String) (tempPath outPath : String)
    (tempWrite : TempWrite) (convertOk : Bool) : List String × Bool :=
  match tempWrite with
  | .failNoFile => (fs.filter (fun p => p != tempPath), false)
  | .failWithFile => ((tempPath :: fs).filter (fun p => p != tempPath), false)
  | .ok =>
      let fs1 := tempPath :: fs
      if convertOk then ((outPath :: fs1).filter (fun p => p != tempPath), true)
      else (fs1.filter (fun p => p != tempPath), false)

/-! ### Per-post processing (`process_single_post`, final version,
`main.py:559-738`) -/

/-- Title resolution (`main.py:582-591`): prefer the extracted metadata
title, overridden by a longer readability title, defaulting to
`"Untitled Post"` when both are falsy. -/
def resolveTitle (t0 : Option String) (content_title : String) : String :=
  let t1 : Option String :=
    if falsyS t0 then some content_title
    else if content_title == "" then t0
    else
      match t0 with
      | some t => if content_title.length > t.length then some content_title else some t
      | none => some content_title
  if falsyS t1 then "Untitled Post" else t1.getD ""

/-- Model of `url.split('/')[-1][:100]` (`main.py:572`). -/
def urlSlugOf (url : String) : String :=
  .mk (((splitOnChar '/' url.data).getLastD []).take 100)

/-- The filename date computation (`main.py:603-612`) applied to a present
`published_date` string `d`: `datetime.fromisoformat(d.split('T')[0])`
rendered `%Y%m%d` when it parses, else `d` with dashes dropped when `d` has
exactly three dash-separated parts, else today's `%Y%m%d`. -/
def fmtDatePfx (d today : String) : String :=
  match isoDateYMD (String.mk ((splitOnChar 'T' d.data).headD [])) with
  | some ymd => .mk (ymd.data.filter (fun c => c != '-'))
  | none =>
      if (splitOnChar '-' d.data).length = 3 then .mk (d.data.filter (fun c => c != '-'))
      else today

/-- The parts of a successfully fetched post page that
`process_single_post` consumes: the metadata-bearing parts, the readability
title (`doc.title()`, possibly empty), and the `<img>` tags of
`doc.summary()` with their localizer attributes. -/
structure PostPage where
  meta : PageMeta
  contentTitle : String
  imgs : List ImgTag

/-- The environment-determined behaviour of processing one post: the fetch
outcome (`none` = `requests.get`/`raise_for_status` raised,
`main.py:574-575`), the slug collaborator, whether a given path's file write
succeeds, whether pandoc conversion to a given output file succeeds, whether
the incremental-log rewrite succeeds (`main.py:553-554`), and today's date
in `%Y%m%d` form (`main.py:612`). -/
structure PostBehavior where
  fetched : Option PostPage
  slugify : String → String
  writeOk : String → Bool
  convertOk : String → Bool
  saveLogOk : Bool
  todayCompact : String

/-- Result of `process_single_post`: its boolean return value, whether an
exception reached the outer handler (`main.py:734-738`), the in-memory and
persisted processed-URL sets afterwards, the file system, the per-format
output files produced in order, the pdf/epub formats whose conversion step
failed and was skipped (`main.py:709-717`), and whether `requests.get(url)`
was issued. -/
structure PSPResult where
  success : Bool
  raised : Bool
  memLog : List String
  diskLog : List String
  fs : List String
  written : List String
  failedFormats : List String
  fetchAttempted : Bool

/-- State threaded through the per-format loop (`main.py:616-726`). -/
structure FmtState where
  fs : List String
  written : List String
  failedFormats : List String

/-- The per-format loop (`main.py:616-726`).  `md`/`html`/`json` build their
payload and write it, an `open`/`write` exception escaping to the outer
handler (the boolean result); `pdf`/`epub` run the conversion step whose
failures are caught and skipped; unknown formats are logged and skipped
(`main.py:718-720`).  A failed write is modelled as leaving no (complete)
output file; partial file contents are not modelled. -/
def renderFormats (b : PostBehavior) (outputDir namePfx slug : String) :
    List String → FmtState → FmtState × Bool
  | [], st => (st, false)
  | fmt :: rest, st =>
      if fmt = "md" ∨ fmt = "html" ∨ fmt = "json" then
        let filepath := outputDir ++ "/" ++ (namePfx ++ "_" ++ slug ++ "." ++ fmt)
        if b.writeOk filepath then
          renderFormats b outputDir namePfx slug rest
            { st with fs := filepath :: st.fs, written := st.written ++ [filepath] }
        else (st, true)
      else if fmt = "pdf" ∨ fmt = "epub" then
        let filepath := outputDir ++ "/" ++ (namePfx ++ "_" ++ slug ++ "." ++ fmt)
        let tempPath := outputDir ++ "/" ++ (namePfx ++ "_" ++ slug ++ "_temp.html")
        let tw : TempWrite := if b.writeOk tempPath then .ok else .failNoFile
        let r := pdfEpubRender st.fs tempPath filepath tw (b.convertOk filepath)
        if r.2 then
          renderFormats b outputDir namePfx slug rest
            { st with fs := r.1, written := st.written ++ [filepath] }
        else
          renderFormats b outputDir namePfx slug rest
            { st with fs := r.1, failedFormats := st.failedFormats ++ [fmt] }
      else
        renderFormats b outputDir namePfx slug rest st

/-- The tail of `process_single_post` after the per-format loop
(`main.py:728-732`): on an escaped exception the outer handler returns
`False`; otherwise, when incremental, `save_to_download_log` adds the URL to
the in-memory set (`main.py:551`) and then rewrites the log file — a failed
rewrite raises, leaving the persisted set untouched but the in-memory set
grown. -/
def pspFinish (b : PostBehavior) (url : String) (incremental_flag : Bool)
    (memLog diskLog : List String) (st : FmtState) (raised : Bool) : PSPResult :=
  if raised then
    { success := false, raised := true, memLog := memLog, diskLog := diskLog,
      fs := st.fs, written := st.written, failedFormats := st.failedFormats,
      fetchAttempted := true }
  else if incremental_flag then
    let memLog' := if url ∈ memLog then memLog else url :: memLog
    if b.saveLogOk then
      { success := true, raised := false, memLog := memLog', diskLog := memLog',
        fs := st.fs, written := st.written, failedFormats := st.failedFormats,
        fetchAttempted := true }
    else
      { success := false, raised := true, memLog := memLog', diskLog := diskLog,
        fs := st.fs, written := st.written, failedFormats := st.failedFormats,
        fetchAttempted := true }
  else
    { success := true, raised := false, memLog := memLog, diskLog := diskLog,
      fs := st.fs, written := st.written, failedFormats := st.failedFormats,
      fetchAttempted := true }

/-- Shallow embedding of the final `process_single_post`
(`main.py:559-738`).  Effects performed before an exception are preserved;
the in-memory set mutation of `save_to_download_log` (`main.py:551`) happens
before the log-file write, so a failed write still grows the in-memory
set. -/
def process_single_post (b : PostBehavior) (url outputDir : String)
    (formats_to_save : List String) (download_images_flag : Bool)
    (config_assets_dir_name : String) (incremental_flag : Bool)
    (memLog diskLog fs : List String) : PSPResult :=
  if incremental_flag ∧ url ∈ memLog then
    -- skip check inside the function (`main.py:567-569`)
    { success := true, raised := false, memLog := memLog, diskLog := diskLog, fs := fs,
      written := [], failedFormats := [], fetchAttempted := false }
  else
    let url_slug := urlSlugOf url
    match b.fetched with
    | none =>
        { success := false, raised := true, memLog := memLog, diskLog := diskLog, fs := fs,
          written := [], failedFormats := [], fetchAttempted := true }
    | some page =>
        let metadata := extract_metadata_from_post page.meta url
        let title := resolveTitle metadata.title page.contentTitle
        let pas0 := if title != "" && title != "Untitled Post" then b.slugify title else url_slug
        let post_assets_slug := if pas0 == "" then "post_" ++ url_slug else pas0
        let destDir := outputDir ++ "/" ++ config_assets_dir_name ++ "/" ++ post_assets_slug
        let fs1 :=
          if download_images_flag then
            (download_images_and_rewrite_paths page.imgs destDir post_assets_slug
              config_assets_dir_name fs).fs
          else fs
        match metadata.published_date with
        | none =>
            -- `metadata.get("published_date", …)` returns the stored `None`
            -- (the key is always present), and `None.split('T')` raises
            -- `AttributeError` (`main.py:603-605`) before any format output.
            { success := false, raised := true, memLog := memLog, diskLog := diskLog, fs := fs1,
              written := [], failedFormats := [], fetchAttempted := true }
        | some d =>
            let namePfx := fmtDatePfx d b.todayCompact
            let clean_slug := if title != "" then b.slugify title else url_slug
            let r := renderFormats b outputDir namePfx clean_slug formats_to_save
                { fs := fs1, written := [], failedFormats := [] }
            pspFinish b url incremental_flag memLog diskLog r.1 r.2

/-! ### Orchestrator loop over one Substack's posts (`cli`,
`main.py:809-833`) -/

/-- Aggregate result of the per-URL loop. -/
structure RunResult where
  memLog : List String
  diskLog : List String
  fs : List String
  successful : Nat
  skipped : Nat
  failed : Nat
  fetches : Nat

/-- The per-URL loop of `cli` (`main.py:809-833`): the skip check against the
in-memory set runs before `process_single_post` (`main.py:813-816`), and a
post's failure only increments the failure count — the loop continues with
the next URL.  `fetches` counts the posts for which `requests.get(url)` was
issued. -/
def runPosts (behav : String → PostBehavior) (outputDir : String)
    (formats : List String) (download_images : Bool) (assetsDirName : String)
    (incremental : Bool) :
    List String → List String → List String → List String → RunResult
  | [], memLog, diskLog, fs =>
      { memLog := memLog, diskLog := diskLog, fs := fs,
        successful := 0, skipped := 0, failed := 0, fetches := 0 }
  | url :: rest, memLog, diskLog, fs =>
      if incremental ∧ url ∈ memLog then
        let r := runPosts behav outputDir formats download_images assetsDirName incremental
            rest memLog diskLog fs
        { r with skipped := r.skipped + 1 }
      else
        let p := process_single_post (behav url) url outputDir formats download_images
            assetsDirName incremental memLog diskLog fs
        let r := runPosts behav outputDir formats download_images assetsDirName incremental
            rest p.memLog p.diskLog p.fs
        { r with
          fetches := r.fetches + 1
          successful := if p.success then r.successful + 1 else r.successful
          failed := if p.success then r.failed else r.failed + 1 }

/-- One incremental run over a fixed discovered URL list: the in-memory set
is loaded from the persisted log (`main.py:795`), then the per-URL loop
runs. -/
def runIncremental (behav : String → PostBehavior) (outputDir : String)
    (formats : List String) (download_images : Bool) (assetsDirName : String)
    (urls : List String) (diskLog fs : List String) : RunResult :=
  runPosts behav outputDir formats download_images assetsDirName true
    urls diskLog diskLog fs

/-! ### Concrete fixtures used by individual claims -/

/-- C1 fixture: a fetched page with title and date in JSON-LD. -/
def c1Page : PostPage :=
  { meta :=
      { jsonLd := some (.ok (.obj
          [("headline", .str "My Post"), ("datePublished", .str "2023-01-01")]))
        authorMeta := none, dateMeta := none, tagMetas := [] }
    contentTitle := "", imgs := [] }

/-- C1 fixture: everything succeeds except pandoc conversion. -/
def c1B : PostBehavior :=
  { fetched := some c1Page, slugify := fun _ => "my-post", writeOk := fun _ => true,
    convertOk := fun _ => false, saveLogOk := true, todayCompact := "20240101" }

/-- C3 fixture: a fetched page carrying no published date from any source. -/
def c3Page : PostPage :=
  { meta := { jsonLd := none, authorMeta := none, dateMeta := none, tagMetas := [] }
    contentTitle := "Some Valid Title", imgs := [] }

/-- C3 fixture: the fetch works but processing fails deterministically
(missing date), run after run, on an unchanged source. -/
def c3B : PostBehavior :=
  { fetched := some c3Page, slugify := fun _ => "some-valid-title", writeOk := fun _ => true,
    convertOk := fun _ => true, saveLogOk := true, todayCompact := "20240101" }

/-- C3 witness fixture: a post whose processing fully succeeds. -/
def c3OkPage : PostPage :=
  { meta :=
      { jsonLd := some (.ok (.obj
          [("headline", .str "Post A"), ("datePublished", .str "2023-05-05")]))
        authorMeta := none, dateMeta := none, tagMetas := [] }
    contentTitle := "", imgs := [] }

/-- C3 witness fixture: all collaborators succeed. -/
def c3OkB : PostBehavior :=
  { fetched := some c3OkPage, slugify := fun _ => "post-a", writeOk := fun _ => true,
    convertOk := fun _ => true, saveLogOk := true, todayCompact := "20240101" }

/-- C6 fixture: the post fetch raises a requests exception. -/
def c6FetchFailB : PostBehavior :=
  { fetched := none, slugify := fun s => s, writeOk := fun _ => true,
    convertOk := fun _ => true, saveLogOk := true, todayCompact := "20240101" }

/-- C10 fixture: a fetched page with valid content but no date source. -/
def c10Page : PostPage :=
  { meta := { jsonLd := none, authorMeta := none, dateMeta := none, tagMetas := [] }
    contentTitle := "Valid Content Title", imgs := [] }

/-- C10 fixture: every collaborator succeeds; only the date is missing. -/
def c10B : PostBehavior :=
  { fetched := some c10Page, slugify := fun _ => "valid-content-title",
    writeOk := fun _ => true, convertOk := fun _ => true, saveLogOk := true,
    todayCompact := "20240101" }

/-! ## Theorems -/

/-! ### Helper lemmas about the archive walker -/

theorem archiveStep_subset_none (acc page : Finset String) (h : page ⊆ acc) :
    archiveStep acc page = none := by
  unfold archiveStep
  by_cases hp : page = ∅
  · simp [hp]
  · have hn : page \ acc = ∅ := Finset.sdiff_eq_empty_iff_subset.mpr h
    simp [hp, hn]

theorem get_all_post_urls_halts (pages : Nat → Finset String) (U : Finset String)
    (hU : ∀ n, pages n ⊆ U) :
    ∀ fuel page acc, (U \ acc).card < fuel →
      (get_all_post_urls pages fuel page acc).2 = true := by
  intro fuel
  induction fuel with
  | zero => intro page acc h; omega
  | succ f ih =>
      intro page acc h
      rw [get_all_post_urls]
      cases hstep : archiveStep acc (pages page) with
      | none => rfl
      | some acc' =>
          simp only []
          apply ih
          have hshape : pages page \ acc ≠ ∅ ∧ acc' = acc ∪ pages page := by
            by_cases hp : pages page = ∅
            · simp [archiveStep, hp] at hstep
            · by_cases hn : pages page \ acc = ∅
              · simp [archiveStep, hp, hn] at hstep
              · simp [archiveStep, hp, hn] at hstep
                exact ⟨hn, hstep.symm⟩
          obtain ⟨hn, hacc'⟩ := hshape
          obtain ⟨x, hx⟩ := Finset.nonempty_iff_ne_empty.mpr hn
          rw [Finset.mem_sdiff] at hx
          have hxU : x ∈ U := hU page hx.1
          have hss : U \ acc' ⊂ U \ acc := by
            constructor
            · intro y hy
              rw [Finset.mem_sdiff] at hy ⊢
              refine ⟨hy.1, fun hya => hy.2 ?_⟩
              rw [hacc']
              exact Finset.mem_union_left _ hya
            · intro hsub
              have hxmem : x ∈ U \ acc := Finset.mem_sdiff.mpr ⟨hxU, hx.2⟩
              have := hsub hxmem
              rw [Finset.mem_sdiff, hacc'] at this
              exact this.2 (Finset.mem_union_right _ hx.1)
          have hlt := Finset.card_lt_card hss
          omega

/-! ### Helper lemmas about decimal rendering and the collision loop -/

theorem natDecimalAux_eq (fuel : Nat) :
    ∀ n, n ≤ fuel → natDecimalAux fuel n = ((Nat.digits 10 n).map Nat.digitChar).reverse := by
  induction fuel with
  | zero =>
      intro n hn
      have : n = 0 := Nat.le_zero.mp hn
      subst this
      simp [natDecimalAux]
  | succ f ih =>
      intro n hn
      by_cases hz : n = 0
      · subst hz; simp [natDecimalAux]
      · have hpos : 0 < n := Nat.pos_of_ne_zero hz
        have hdiv : n / 10 < n := Nat.div_lt_self hpos (by norm_num)
        rw [natDecimalAux, if_neg hz, ih (n / 10) (by omega),
          Nat.digits_def' (by norm_num : (1:Nat) < 10) hpos]
        simp

theorem mapDigitChar_inj :
    ∀ (l1 l2 : List Nat), (∀ x ∈ l1, x < 10) → (∀ x ∈ l2, x < 10) →
      l1.map Nat.digitChar = l2.map Nat.digitChar → l1 = l2 := by
  have hinj : ∀ a < 10, ∀ b < 10, Nat.digitChar a = Nat.digitChar b → a = b := by decide
  intro l1
  induction l1 with
  | nil => intro l2 _ _ h; cases l2 <;> simp_all
  | cons a t ihl =>
      intro l2 h1 h2 h
      cases l2 with
      | nil => simp_all
      | cons b t2 =>
          simp only [List.map_cons, List.cons.injEq] at h
          have ha : a = b :=
            hinj a (h1 a (by simp)) b (h2 b (by simp)) h.1
          have ht : t = t2 :=
            ihl t2 (fun x hx => h1 x (by simp [hx])) (fun x hx => h2 x (by simp [hx])) h.2
          rw [ha, ht]

theorem natDecimal_inj : Function.Injective natDecimal := by
  have hrep : ∀ n : Nat, (natDecimal n).data =
      (if n = 0 then ['0'] else ((Nat.digits 10 n).map Nat.digitChar).reverse) := by
    intro n
    by_cases hz : n = 0
    · subst hz; rfl
    · rw [natDecimal, if_neg hz, if_neg hz]
      show natDecimalAux (n + 1) n = _
      exact natDecimalAux_eq (n + 1) n (by omega)
  intro n m h
  have hd : (natDecimal n).data = (natDecimal m).data := congrArg String.data h
  rw [hrep n, hrep m] at hd
  by_cases hn : n = 0 <;> by_cases hm : m = 0
  · omega
  · rw [if_pos hn, if_neg hm] at hd
    have : (Nat.digits 10 m).map Nat.digitChar = ['0'] := by
      have := congrArg List.reverse hd
      simpa using this.symm
    have hdig : Nat.digits 10 m = [0] := by
      apply mapDigitChar_inj _ [0]
      · exact fun x hx => Nat.digits_lt_base (by norm_num) hx
      · simp
      · simpa using this
    have := Nat.ofDigits_digits 10 m
    rw [hdig] at this
    simp [Nat.ofDigits] at this
    omega
  · rw [if_neg hn, if_pos hm] at hd
    have : (Nat.digits 10 n).map Nat.digitChar = ['0'] := by
      have := congrArg List.reverse hd
      simpa using this
    have hdig : Nat.digits 10 n = [0] := by
      apply mapDigitChar_inj _ [0]
      · exact fun x hx => Nat.digits_lt_base (by norm_num) hx
      · simp
      · simpa using this
    have := Nat.ofDigits_digits 10 n
    rw [hdig] at this
    simp [Nat.ofDigits] at this
    omega
  · rw [if_neg hn, if_neg hm] at hd
    have hmap := List.reverse_injective hd
    have hdig := mapDigitChar_inj _ _
      (fun x hx => Nat.digits_lt_base (by norm_num) hx)
      (fun x hx => Nat.digits_lt_base (by norm_num) hx) hmap
    exact Nat.digits_inj_iff.mp hdig

theorem string_ext {a b : String} (h : a.data = b.data) : a = b := by
  cases a; cases b; exact congrArg String.mk h

theorem string_append_cancel_left {a b c : String} (h : a ++ b = a ++ c) : b = c := by
  have hd := congrArg String.data h
  simp only [String.data_append] at hd
  exact string_ext (List.append_cancel_left hd)

theorem string_append_cancel_right {a b c : String} (h : a ++ c = b ++ c) : a = b := by
  have hd := congrArg String.data h
  simp only [String.data_append] at hd
  exact string_ext (List.append_cancel_right hd)

theorem natDecimal_length_pos (n : Nat) : 0 < (natDecimal n).length := by
  by_cases hz : n = 0
  · subst hz; decide
  · have : (natDecimal n).data = ((Nat.digits 10 n).map Nat.digitChar).reverse := by
      rw [natDecimal, if_neg hz]
      show natDecimalAux (n + 1) n = _
      exact natDecimalAux_eq (n + 1) n (by omega)
    have hne : Nat.digits 10 n ≠ [] := Nat.digits_ne_nil_iff_ne_zero.mpr hz
    have : (natDecimal n).data ≠ [] := by
      rw [this]
      simpa using hne
    have hlen : (natDecimal n).data.length ≠ 0 := fun hl => this (List.eq_nil_of_length_eq_zero hl)
    rw [← String.length_data]
    omega

theorem imageCand_inj (base ext : String) : Function.Injective (imageCand base ext) := by
  intro k1 k2 h
  unfold imageCand at h
  by_cases h1 : k1 = 0 <;> by_cases h2 : k2 = 0
  · omega
  · rw [if_pos h1, if_neg h2] at h
    have hlen := congrArg String.length h
    simp only [String.length_append] at hlen
    have := natDecimal_length_pos k2
    have h_ : ("_" : String).length = 1 := rfl
    omega
  · rw [if_neg h1, if_pos h2] at h
    have hlen := congrArg String.length h
    simp only [String.length_append] at hlen
    have := natDecimal_length_pos k1
    have h_ : ("_" : String).length = 1 := rfl
    omega
  · rw [if_neg h1, if_neg h2] at h
    have h3 := string_append_cancel_right h
    have h4 := string_append_cancel_left h3
    exact natDecimal_inj h4

theorem imagePath_inj (fsd base ext : String) :
    Function.Injective (fun k => fsd ++ "/" ++ imageCand base ext k) := by
  intro k1 k2 h
  exact imageCand_inj base ext (string_append_cancel_left h)

theorem exists_free_cand (fs : List String) (destDir base ext : String) :
    ∃ k ≤ fs.length, (destDir ++ "/" ++ imageCand base ext k) ∉ fs := by
  by_contra hc
  push_neg at hc
  have hsub : (Finset.range (fs.length + 1)).image
      (fun k => destDir ++ "/" ++ imageCand base ext k) ⊆ fs.toFinset := by
    intro p hp
    rw [Finset.mem_image] at hp
    obtain ⟨k, hk, rfl⟩ := hp
    rw [Finset.mem_range] at hk
    rw [List.mem_toFinset]
    exact hc k (by omega)
  have hcard := Finset.card_le_card hsub
  rw [Finset.card_image_of_injective _ (imagePath_inj destDir base ext),
    Finset.card_range] at hcard
  have := fs.toFinset_card_le
  omega

theorem imageNameFrom_spec (fs : List String) (destDir base ext : String) :
    ∀ fuel k0,
      (∃ j, k0 ≤ j ∧ j < k0 + fuel ∧ (destDir ++ "/" ++ imageCand base ext j) ∉ fs) →
      ∃ k, k0 ≤ k ∧
        imageNameFrom fs destDir base ext fuel k0 = imageCand base ext k ∧
        (destDir ++ "/" ++ imageCand base ext k) ∉ fs ∧
        (∀ j, k0 ≤ j → j < k → (destDir ++ "/" ++ imageCand base ext j) ∈ fs) := by
  intro fuel
  induction fuel with
  | zero =>
      intro k0 h
      obtain ⟨j, hj1, hj2, _⟩ := h
      omega
  | succ f ih =>
      intro k0 h
      by_cases hmem : (destDir ++ "/" ++ imageCand base ext k0) ∈ fs
      · obtain ⟨j, hj1, hj2, hjfree⟩ := h
        have hjne : j ≠ k0 := fun he => hjfree (he ▸ hmem)
        obtain ⟨k, hk1, hk2, hk3, hk4⟩ :=
          ih (k0 + 1) ⟨j, by omega, by omega, hjfree⟩
        refine ⟨k, by omega, ?_, hk3, ?_⟩
        · rw [imageNameFrom, if_pos hmem]; exact hk2
        · intro i hi1 hi2
          by_cases hie : i = k0
          · exact hie ▸ hmem
          · exact hk4 i (by omega) hi2
      · exact ⟨k0, le_refl _, by rw [imageNameFrom, if_neg hmem], hmem,
          fun j hj1 hj2 => absurd hj1 (by omega)⟩

theorem localizeLoop_fs_mono (destDir adn slug : String) :
    ∀ (imgs : List ImgTag) (fs : List String) (x : String), x ∈ fs →
      x ∈ (localizeLoop destDir adn slug imgs fs).1 := by
  intro imgs
  induction imgs with
  | nil => intro fs x hx; simpa [localizeLoop] using hx
  | cons img rest ih =>
      intro fs x hx
      rw [localizeLoop]
      cases hsrc : img.src with
      | none => exact ih fs x hx
      | some s =>
          by_cases hdata : img.isDataUri
          · simp only [hdata, if_true]
            exact ih fs x hx
          · by_cases hdl : img.downloadOk
            · simp only [hdata, hdl, if_false, Bool.not_true]
              exact ih _ x (by simp [hx])
            · simp only [hdata, hdl, if_false, Bool.not_false, if_true]
              exact ih fs x hx

/-! ### Claim theorems -/

/-- C2 fails on the code: for the JSON-LD block
`{"headline":"T","author":{"name":"A"},"datePublished":"2023-01-01T12:00:00Z","keywords":"x, y"}`
the extraction does not yield `published_date="2023-01-01"` — the
`YYYY-MM-DD` normalisation (`main.py:187-197`) runs only in the meta-tag
fallback branch, which a date found in JSON-LD skips. -/
theorem c2_counterexample :
    ¬((extract_metadata_from_post c2Page "https://e.substack.com/p/t").title = some "T" ∧
      (extract_metadata_from_post c2Page "https://e.substack.com/p/t").author = some "A" ∧
      (extract_metadata_from_post c2Page "https://e.substack.com/p/t").published_date =
        some "2023-01-01" ∧
      (extract_metadata_from_post c2Page "https://e.substack.com/p/t").tags = ["x", "y"]) := by
  decide

/-- C2 amended: for that JSON-LD block, `extract_metadata_from_post` returns
`title="T"`, `author="A"`, `tags=["x","y"]`, and `published_date` equal to
the raw JSON-LD string `"2023-01-01T12:00:00Z"` (not normalised to
`YYYY-MM-DD`). -/
theorem c2_amended_extraction :
    extract_metadata_from_post c2Page "https://e.substack.com/p/t" =
      { title := some "T", author := some "A",
        published_date := some "2023-01-01T12:00:00Z",
        tags := ["x", "y"], url := "https://e.substack.com/p/t" } := by
  decide

/-- C4: a fetched archive page whose extracted post-URL set is a subset of
the accumulated set makes the page-walking loop break immediately, and the
walk over any pagination sequence drawing from a finite URL universe `U`
(in particular any repeating or looping sequence) reaches a break within
`U.card + 1` iterations. -/
theorem c4_archive_discovery_terminates (pages : Nat → Finset String)
    (U : Finset String) (hU : ∀ n, pages n ⊆ U) :
    (∀ acc p, pages p ⊆ acc → archiveStep acc (pages p) = none) ∧
    (∀ page acc, (get_all_post_urls pages (U.card + 1) page acc).2 = true) := by
  constructor
  · intro acc p h
    exact archiveStep_subset_none acc (pages p) h
  · intro page acc
    apply get_all_post_urls_halts pages U hU
    have h := Finset.card_le_card (Finset.sdiff_subset (s := U) (t := acc))
    omega

/-- Witness for C4: a pagination that repeats the same single-URL page
forever still halts (with its breaking condition reached). -/
theorem c4_witness :
    archiveStep {"u"} {"u"} = none ∧
    (get_all_post_urls (fun _ => {"u"}) (({"u"} : Finset String).card + 1) 1 ∅).2 = true := by
  have h := c4_archive_discovery_terminates (fun _ => ({"u"} : Finset String)) {"u"}
    (fun _ => Finset.Subset.refl _)
  exact ⟨h.1 {"u"} 0 (Finset.Subset.refl _), h.2 1 ∅⟩

/-- C5: the localizer resolves filename collisions deterministically by an
incrementing numeric suffix: in general the chosen name is the first free
candidate of the sequence `base++ext, base_1++ext, base_2++ext, …` (all
earlier candidates exist already), and concretely two downloaded images in
one fragment slugifying to the same base `name` with extension `.ext` are
written as `name.ext` then `name_1.ext` in encounter order. -/
theorem c5_image_collision_resolution :
    (∀ (fs : List String) (destDir base ext : String), ∃ k,
        local_image_filename fs destDir base ext = imageCand base ext k ∧
        (destDir ++ "/" ++ imageCand base ext k) ∉ fs ∧
        (∀ j < k, (destDir ++ "/" ++ imageCand base ext j) ∈ fs)) ∧
    (download_images_and_rewrite_paths
        [⟨some "https://cdn.example/a/name.ext", false, true, "name", ".ext"⟩,
         ⟨some "https://cdn.example/b/name.ext", false, true, "name", ".ext"⟩]
        "out/assets/post" "post" "assets" []).written = ["name.ext", "name_1.ext"] := by
  constructor
  · intro fs destDir base ext
    obtain ⟨k0, hk0, hfree⟩ := exists_free_cand fs destDir base ext
    obtain ⟨k, _, h2, h3, h4⟩ :=
      imageNameFrom_spec fs destDir base ext (fs.length + 1) 0 ⟨k0, by omega, by omega, hfree⟩
    exact ⟨k, h2, h3, fun j hj => h4 j (by omega) hj⟩
  · decide

/-- C7: `load_download_log` returns the empty set when the log file is
absent; when the file exists but is not parseable JSON, the
`json.JSONDecodeError` is caught, the malformed-log warning is emitted (the
boolean), and the empty set is returned instead of raising. -/
theorem c7_load_log_absent_or_malformed :
    load_download_log .absent = (.ok [], false) ∧
    load_download_log .notJson = (.ok [], true) :=
  ⟨rfl, rfl⟩

/-- C8: for every pdf/epub render, the temporary synthesized HTML file is
gone from the file system on every exit path of the conversion step — after
the attempt it does not exist, whether the temp write failed, the conversion
raised, or everything succeeded. -/
theorem c8_temp_html_removed (fs : List String) (tempPath outPath : String)
    (tw : TempWrite) (convertOk : Bool) :
    tempPath ∉ (pdfEpubRender fs tempPath outPath tw convertOk).1 := by
  cases tw <;> cases convertOk <;> simp [pdfEpubRender, List.mem_filter]

/-- C9 fails on the code: a fragment whose single image is a data URI still
gets its asset directory created (by the `os.makedirs` before the image
loop, `main.py:297`) although no image file is written. -/
theorem c9_counterexample :
    ("out/assets/post" ∈ (download_images_and_rewrite_paths
        [⟨some "data:image/png;base64,AAA", true, true, "b", ".png"⟩]
        "out/assets/post" "post" "assets" []).fs) ∧
    (download_images_and_rewrite_paths
        [⟨some "data:image/png;base64,AAA", true, true, "b", ".png"⟩]
        "out/assets/post" "post" "assets" []).written = [] := by
  decide

/-- C9 amended: the asset destination directory is created eagerly, before
the image loop, whenever the fragment contains at least one `<img>` tag —
regardless of whether any image file is actually written — and is not
created when the fragment has no images: after localization it exists iff
the fragment had an image or it already existed. -/
theorem c9_amended_eager_creation (imgs : List ImgTag) (destDir postSlug adn : String)
    (fs : List String) :
    destDir ∈ (download_images_and_rewrite_paths imgs destDir postSlug adn fs).fs ↔
      (imgs ≠ [] ∨ destDir ∈ fs) := by
  by_cases hi : imgs = []
  · subst hi
    simp [download_images_and_rewrite_paths]
  · have himgs : imgs.isEmpty = false := by
      cases imgs with
      | nil => exact absurd rfl hi
      | cons a t => rfl
    constructor
    · intro _
      exact Or.inl hi
    · intro _
      rw [download_images_and_rewrite_paths]
      simp only [himgs, Bool.false_eq_true, if_false]
      apply localizeLoop_fs_mono
      by_cases hd : destDir ∈ fs <;> simp [hd]

/-! ### Helper lemmas about `process_single_post` and the per-URL loop -/

theorem pspFinish_success_not_raised (b : PostBehavior) (url : String) (incr : Bool)
    (memLog diskLog : List String) (st : FmtState) (raised : Bool) :
    (pspFinish b url incr memLog diskLog st raised).success =
      !(pspFinish b url incr memLog diskLog st raised).raised := by
  unfold pspFinish
  split
  · rfl
  · split
    · dsimp only
      split <;> rfl
    · rfl

theorem psp_success_not_raised (b : PostBehavior) (url od : String) (fm : List String)
    (di : Bool) (adn : String) (incr : Bool) (memLog diskLog fs : List String) :
    (process_single_post b url od fm di adn incr memLog diskLog fs).success =
      !(process_single_post b url od fm di adn incr memLog diskLog fs).raised := by
  unfold process_single_post
  split
  · rfl
  · split
    · rfl
    · dsimp only
      split
      · rfl
      · apply pspFinish_success_not_raised

theorem runPosts_counts (behav : String → PostBehavior) (od : String) (fm : List String)
    (di : Bool) (adn : String) (incr : Bool) :
    ∀ (urls memLog diskLog fs : List String),
      (runPosts behav od fm di adn incr urls memLog diskLog fs).successful +
        (runPosts behav od fm di adn incr urls memLog diskLog fs).skipped +
        (runPosts behav od fm di adn incr urls memLog diskLog fs).failed = urls.length := by
  intro urls
  induction urls with
  | nil => intro memLog diskLog fs; rfl
  | cons url rest ih =>
      intro memLog diskLog fs
      rw [runPosts]
      split
      · have := ih memLog diskLog fs
        dsimp only
        simp only [List.length_cons]
        omega
      · dsimp only
        set p := process_single_post (behav url) url od fm di adn incr memLog diskLog fs
        have := ih p.memLog p.diskLog p.fs
        cases hp : p.success <;> simp [hp, List.length_cons] <;> omega

theorem runPosts_all_in_mem (behav : String → PostBehavior) (od : String)
    (fm : List String) (di : Bool) (adn : String) :
    ∀ (urls memLog diskLog fs : List String), (∀ u ∈ urls, u ∈ memLog) →
      runPosts behav od fm di adn true urls memLog diskLog fs =
        { memLog := memLog, diskLog := diskLog, fs := fs,
          successful := 0, skipped := urls.length, failed := 0, fetches := 0 } := by
  intro urls
  induction urls with
  | nil => intro memLog diskLog fs _; rfl
  | cons url rest ih =>
      intro memLog diskLog fs h
      rw [runPosts, if_pos ⟨rfl, h url (List.mem_cons_self url rest)⟩,
        ih memLog diskLog fs (fun u hu => h u (List.mem_cons_of_mem url hu))]
      rfl

theorem pspFinish_log_iff (b : PostBehavior) (url : String)
    (memLog diskLog : List String) (st : FmtState) (raised : Bool)
    (hmem : url ∉ memLog) :
    (url ∈ (pspFinish b url true memLog diskLog st raised).diskLog) ↔
      (((pspFinish b url true memLog diskLog st raised).success = true ∧ url ∉ memLog) ∨
        url ∈ diskLog) := by
  by_cases hs : b.saveLogOk <;> cases raised <;> simp [pspFinish, hs, hmem]

/-! ### Claims about per-post processing and the orchestrator -/

/-- C1 fails on the code: with incremental mode on, a post whose `pdf`
conversion fails (caught and skipped at `main.py:709-717`) but whose `md`
write succeeds is still recorded in the persisted log — the log does not
certify that every requested format succeeded. -/
theorem c1_counterexample :
    ("https://e.substack.com/p/my-post" ∈ (process_single_post c1B
        "https://e.substack.com/p/my-post" "out" ["md", "pdf"] false "assets" true
        [] [] []).diskLog) ∧
    (process_single_post c1B "https://e.substack.com/p/my-post" "out" ["md", "pdf"]
        false "assets" true [] [] []).failedFormats = ["pdf"] ∧
    ("out/20230101_my-post.pdf" ∉ (process_single_post c1B
        "https://e.substack.com/p/my-post" "out" ["md", "pdf"] false "assets" true
        [] [] []).written) := by
  decide

/-- C1 amended: with incremental mode enabled, a URL is newly recorded in
the persisted log exactly when the call returns success — which requires
the fetch, the date computation, every `md`/`html`/`json` write and the
log write itself to go through, but not the `pdf`/`epub` conversions,
whose caught failures leave the post marked processed. -/
theorem c1_amended_log_iff_success (b : PostBehavior) (url od : String)
    (fm : List String) (di : Bool) (adn : String) (memLog diskLog fs : List String) :
    (url ∈ (process_single_post b url od fm di adn true memLog diskLog fs).diskLog) ↔
      (((process_single_post b url od fm di adn true memLog diskLog fs).success = true ∧
        url ∉ memLog) ∨ url ∈ diskLog) := by
  by_cases hmem : url ∈ memLog
  · unfold process_single_post
    rw [if_pos ⟨rfl, hmem⟩]
    simp [hmem]
  · unfold process_single_post
    rw [if_neg (fun hc => hmem hc.2)]
    cases hfetch : b.fetched with
    | none => simp [hmem]
    | some page =>
        dsimp only
        cases hdate : (extract_metadata_from_post page.meta url).published_date with
        | none => simp [hmem]
        | some d => exact pspFinish_log_iff b url memLog diskLog _ _ hmem

/-- C3 fails on the code: with a post that deterministically fails (its
page has no published date, so processing raises before any output), the
second incremental run over the unchanged source still fetches it — the
re-run property does not hold unconditionally. -/
theorem c3_counterexample :
    (runIncremental (fun _ => c3B) "out" ["md"] false "assets"
        ["https://e.substack.com/p/x"]
        (runIncremental (fun _ => c3B) "out" ["md"] false "assets"
          ["https://e.substack.com/p/x"] [] []).diskLog
        (runIncremental (fun _ => c3B) "out" ["md"] false "assets"
          ["https://e.substack.com/p/x"] [] []).fs).fetches ≠ 0 := by
  decide

/-- C3 amended: provided the first incremental run leaves every discovered
URL in the persisted log (in particular when every post succeeds), the
second run over the unchanged URL list performs zero post fetches — each URL
is skipped against the loaded set before any fetch — and leaves the
persisted set unchanged. -/
theorem c3_amended_second_run_idle (behav : String → PostBehavior) (od : String)
    (fm : List String) (di : Bool) (adn : String) (urls diskLog fs : List String)
    (h : ∀ u ∈ urls, u ∈ (runIncremental behav od fm di adn urls diskLog fs).diskLog) :
    (runIncremental behav od fm di adn urls
        (runIncremental behav od fm di adn urls diskLog fs).diskLog
        (runIncremental behav od fm di adn urls diskLog fs).fs).fetches = 0 ∧
    (runIncremental behav od fm di adn urls
        (runIncremental behav od fm di adn urls diskLog fs).diskLog
        (runIncremental behav od fm di adn urls diskLog fs).fs).diskLog =
      (runIncremental behav od fm di adn urls diskLog fs).diskLog := by
  rw [runIncremental, runPosts_all_in_mem behav od fm di adn urls _ _ _ h]
  exact ⟨rfl, rfl⟩

/-- Witness for C3 (amended): a single post that fully succeeds on the first
run is skipped with zero fetches on the second, and the log is unchanged. -/
theorem c3_witness :
    (runIncremental (fun _ => c3OkB) "out" ["md"] false "assets" ["u"]
        (runIncremental (fun _ => c3OkB) "out" ["md"] false "assets" ["u"] [] []).diskLog
        (runIncremental (fun _ => c3OkB) "out" ["md"] false "assets" ["u"] [] []).fs).fetches
      = 0 ∧
    (runIncremental (fun _ => c3OkB) "out" ["md"] false "assets" ["u"]
        (runIncremental (fun _ => c3OkB) "out" ["md"] false "assets" ["u"] [] []).diskLog
        (runIncremental (fun _ => c3OkB) "out" ["md"] false "assets" ["u"] [] []).fs).diskLog
      = (runIncremental (fun _ => c3OkB) "out" ["md"] false "assets" ["u"] [] []).diskLog :=
  c3_amended_second_run_idle (fun _ => c3OkB) "out" ["md"] false "assets" ["u"] [] []
    (by decide)

/-- C6: every exception at fetch, extraction, localization or rendering is
caught inside `process_single_post`, which then returns `False`; and the
orchestrator's per-URL loop always classifies each discovered URL as
successful, skipped or failed and continues — the counts sum to the number
of URLs, so no single post's failure aborts the batch. -/
theorem c6_per_post_failure_isolation (behav : String → PostBehavior) (od : String)
    (fm : List String) (di : Bool) (adn : String) (incr : Bool)
    (urls memLog diskLog fs : List String) :
    (∀ (b : PostBehavior) (url : String) (ml dl f : List String),
        (process_single_post b url od fm di adn incr ml dl f).raised = true →
        (process_single_post b url od fm di adn incr ml dl f).success = false) ∧
    ((runPosts behav od fm di adn incr urls memLog diskLog fs).successful +
      (runPosts behav od fm di adn incr urls memLog diskLog fs).skipped +
      (runPosts behav od fm di adn incr urls memLog diskLog fs).failed = urls.length) := by
  constructor
  · intro b url ml dl f hr
    rw [psp_success_not_raised, hr]
    rfl
  · exact runPosts_counts behav od fm di adn incr urls memLog diskLog fs

/-- Witness for C6: a post whose fetch raises is returned as a failure, and
a two-URL batch containing it still accounts for both URLs. -/
theorem c6_witness :
    ((process_single_post c6FetchFailB "https://e.substack.com/p/a" "out" ["md"]
        false "assets" false [] [] []).success = false) ∧
    ((runPosts (fun _ => c6FetchFailB) "out" ["md"] false "assets" false
        ["https://e.substack.com/p/a", "https://e.substack.com/p/b"] [] [] []).successful +
      (runPosts (fun _ => c6FetchFailB) "out" ["md"] false "assets" false
        ["https://e.substack.com/p/a", "https://e.substack.com/p/b"] [] [] []).skipped +
      (runPosts (fun _ => c6FetchFailB) "out" ["md"] false "assets" false
        ["https://e.substack.com/p/a", "https://e.substack.com/p/b"] [] [] []).failed = 2) := by
  constructor
  · exact (c6_per_post_failure_isolation (fun _ => c6FetchFailB) "out" ["md"] false
      "assets" false [] [] [] []).1 c6FetchFailB "https://e.substack.com/p/a" [] [] []
      (by decide)
  · exact (c6_per_post_failure_isolation (fun _ => c6FetchFailB) "out" ["md"] false
      "assets" false ["https://e.substack.com/p/a", "https://e.substack.com/p/b"]
      [] [] []).2

/-- C10: a fetched post whose page yields no published date from any source
has `published_date = None`; the filename date computation then raises
(`None.split`) before any format output is produced, the exception is caught
at the per-post boundary, the call returns `False` with the persisted log
untouched, and the orchestrator counts the post as failed. -/
theorem c10_missing_date_fails (b : PostBehavior) (url od : String) (fm : List String)
    (di : Bool) (adn : String) (incr : Bool) (memLog diskLog fs : List String)
    (page : PostPage) (hfetch : b.fetched = some page)
    (hdate : (extract_metadata_from_post page.meta url).published_date = none)
    (hskip : ¬(incr = true ∧ url ∈ memLog)) :
    (process_single_post b url od fm di adn incr memLog diskLog fs).success = false ∧
    (process_single_post b url od fm di adn incr memLog diskLog fs).raised = true ∧
    (process_single_post b url od fm di adn incr memLog diskLog fs).written = [] ∧
    (process_single_post b url od fm di adn incr memLog diskLog fs).diskLog = diskLog ∧
    (runPosts (fun _ => b) od fm di adn incr [url] memLog diskLog fs).failed = 1 := by
  refine ⟨?_, ?_, ?_, ?_, ?_⟩ <;>
    simp [process_single_post, runPosts, hfetch, hdate, hskip]

/-- Witness for C10: a concrete post with a valid title but no date source
in its page fails, writes nothing, leaves the log alone, and is counted
failed. -/
theorem c10_witness :
    (process_single_post c10B "https://e.substack.com/p/nodate" "out" ["md", "json"]
        false "assets" true [] [] []).success = false ∧
    (process_single_post c10B "https://e.substack.com/p/nodate" "out" ["md", "json"]
        false "assets" true [] [] []).raised = true ∧
    (process_single_post c10B "https://e.substack.com/p/nodate" "out" ["md", "json"]
        false "assets" true [] [] []).written = [] ∧
    (process_single_post c10B "https://e.substack.com/p/nodate" "out" ["md", "json"]
        false "assets" true [] [] []).diskLog = [] ∧
    (runPosts (fun _ => c10B) "out" ["md", "json"] false "assets" true
        ["https://e.substack.com/p/nodate"] [] [] []).failed = 1 :=
  c10_missing_date_fails c10B "https://e.substack.com/p/nodate" "out" ["md", "json"]
    false "assets" true [] [] [] c10Page rfl (by decide) (by decide)

/-- Witness for C1 (amended): the membership iff instantiated at the
concrete post whose pdf conversion fails. -/
theorem c1_witness :
    ("https://e.substack.com/p/my-post" ∈ (process_single_post c1B
        "https://e.substack.com/p/my-post" "out" ["md", "pdf"] false "assets" true
        [] [] []).diskLog) ↔
      (((process_single_post c1B "https://e.substack.com/p/my-post" "out" ["md", "pdf"]
          false "assets" true [] [] []).success = true ∧
        "https://e.substack.com/p/my-post" ∉ ([] : List String)) ∨
        "https://e.substack.com/p/my-post" ∈ ([] : List String)) :=
  c1_amended_log_iff_success c1B "https://e.substack.com/p/my-post" "out" ["md", "pdf"]
    false "assets" [] [] []

/-- Witness for C5: the general first-free-candidate property instantiated
at a directory already holding `name.ext`. -/
theorem c5_witness :
    ∃ k, local_image_filename ["out/assets/post/name.ext"] "out/assets/post" "name" ".ext" =
        imageCand "name" ".ext" k ∧
      ("out/assets/post" ++ "/" ++ imageCand "name" ".ext" k) ∉ ["out/assets/post/name.ext"] ∧
      (∀ j < k,
        ("out/assets/post" ++ "/" ++ imageCand "name" ".ext" j) ∈ ["out/assets/post/name.ext"]) :=
  c5_image_collision_resolution.1 ["out/assets/post/name.ext"] "out/assets/post" "name" ".ext"

/-- Witness for C8: the cleanup property instantiated at a failing
conversion. -/
theorem c8_witness :
    "out/20230101_p_temp.html" ∉
      (pdfEpubRender [] "out/20230101_p_temp.html" "out/20230101_p.pdf" .ok false).1 :=
  c8_temp_html_removed [] "out/20230101_p_temp.html" "out/20230101_p.pdf" .ok false

/-- Witness for C9 (amended): the creation iff instantiated at a fragment
with one image whose download fails. -/
theorem c9_witness :
    ("d" ∈ (download_images_and_rewrite_paths
        [⟨some "https://x/y.png", false, false, "y", ".png"⟩] "d" "p" "assets" []).fs) ↔
      (([⟨some "https://x/y.png", false, false, "y", ".png"⟩] : List ImgTag) ≠ [] ∨
        "d" ∈ ([] : List String)) :=
  c9_amended_eager_creation [⟨some "https://x/y.png", false, false, "y", ".png"⟩]
    "d" "p" "assets" []

end SubstackDL
